import Mathlib

/-!
Verification of the retrieval-fusion-and-grounding pipeline of the
Fintech-Rag repository, as a shallow embedding in Lean 4.

Conventions of the embedding:
* Python floats are modelled as rationals.
* Python dictionaries that travel through the pipeline (search results,
  fused results, reranked results) are modelled as one record type with
  Option fields for keys that are only sometimes present.
* External services (Pinecone, Cohere rerank, the LLM, the rank_bm25
  scorer, the regular-expression engine) are parameters of the embedded
  functions: each call site receives the service reply as an argument.
* Python set iteration order is not determined by the program text, so
  the set of document ids iterated over by the fusion loop is passed in
  as an explicit enumeration (a duplicate-free list with exactly the
  members of the union), universally quantified in the theorems.
-/

namespace FintechRag

/-- Metadata mapping of a retrieved chunk (the keys the core reads). -/
structure Meta where
  source : Option String
  page : Option String
  deriving Repr, DecidableEq

/-- A result dictionary as passed through the retrieval pipeline
(hybrid_retriever / reranker / generator). Keys that are only added by a
later stage are Option fields, none meaning the key is absent. -/
structure Doc where
  id : String := ""
  score : ℚ := 0
  metadata : Meta := ⟨none, none⟩
  content : String := ""
  sourceTag : String := ""
  rrf_score : Option ℚ := none
  in_vector : Option Bool := none
  in_bm25 : Option Bool := none
  rerank_score : Option ℚ := none
  rerank_index : Option ℕ := none
  deriving Repr, DecidableEq

instance : Inhabited Doc := ⟨{}⟩

/-! ### Fusion Engine: HybridRetriever._reciprocal_rank_fusion -/

/-- Rank dictionary built by the comprehension
vector_ranks = \x7br["id"]: idx for idx, r in enumerate(vector_results)\x7d:
for a duplicated id the later index overwrites the earlier one, so the
lookup returns the last index whose entry has the given id. -/
def dictRank (results : List Doc) (i : String) : Option ℕ :=
  ((results.enum.filterMap fun p => if p.2.id = i then some p.1 else none).getLast?)

/-- RRF score of one id: vector_weight / (k + vector_rank + 1) plus
bm25_weight / (k + bm25_rank + 1), each term present only when the id
occurs in the corresponding list. -/
def rrfScore (wv wb : ℚ) (k : ℕ) (vres bres : List Doc) (i : String) : ℚ :=
  (match dictRank vres i with
   | some r => wv / ((k : ℚ) + r + 1)
   | none => 0) +
  (match dictRank bres i with
   | some r => wb / ((k : ℚ) + r + 1)
   | none => 0)

/-- doc_map entry for an id: the first matching dictionary from
vector_results when the id has a vector rank, otherwise the first
matching dictionary from bm25_results. -/
def docFor (vres bres : List Doc) (i : String) : Option Doc :=
  if (dictRank vres i).isSome then vres.find? fun r => r.id = i
  else bres.find? fun r => r.id = i

/-- Python sorted(keys, key=score, reverse=True): a stable descending
sort. Mathlib insertionSort with the relation (key of the later element
is at most key of the earlier) places an element after all earlier
elements whose key is greater than or equal to its own, which is exactly
the stable descending order. -/
def sortKeyDesc (f : String → ℚ) (l : List String) : List String :=
  haveI : DecidableRel fun a b : String => f b ≤ f a :=
    fun a b => inferInstanceAs (Decidable (f b ≤ f a))
  l.insertionSort fun a b => f b ≤ f a

/-- The per-result mutation of the final loop: the document dictionary
gains the rrf_score and the two provenance flags. -/
def fuseUpd (vres bres : List Doc) (wv wb : ℚ) (k : ℕ) (i : String)
    (d : Doc) : Doc :=
  { d with rrf_score := some (rrfScore wv wb k vres bres i),
           in_vector := some (dictRank vres i).isSome,
           in_bm25 := some (dictRank bres i).isSome }

/-- HybridRetriever._reciprocal_rank_fusion. allIds is the iteration
order of the Python set union of the two rank-dictionary key sets, which
the program text leaves unspecified; theorems quantify over every valid
enumeration. -/
def reciprocalRankFusion (vres bres : List Doc) (topK : ℕ) (k : ℕ)
    (wv wb : ℚ) (allIds : List String) : List Doc :=
  let sortedIds := sortKeyDesc (rrfScore wv wb k vres bres) allIds
  (sortedIds.take topK).filterMap fun i =>
    (docFor vres bres i).map (fuseUpd vres bres wv wb k i)

/-! ### Refinement definitions written from the words of the spec -/

/-- Modelled from the spec: the RRF score formula of section 4.3, stated
over the id sequences of the two input lists with rank the zero-based
position (first occurrence) of the id in the list; a term is omitted when
the id is absent from that list. -/
def specRRF (ws wd : ℚ) (k : ℕ) (sparseIds denseIds : List String)
    (i : String) : ℚ :=
  (if i ∈ sparseIds then ws / ((k : ℚ) + sparseIds.indexOf i + 1) else 0) +
  (if i ∈ denseIds then wd / ((k : ℚ) + denseIds.indexOf i + 1) else 0)

/-! ### Sparse Index: BM25Store -/

/-- A result dictionary returned by BM25Store.search: the corpus index of
the document together with its score (the id / document / metadata payload
entries are functions of the corpus position and are not repeated here
beyond the index). -/
structure BMResult where
  idx : ℕ
  score : ℚ
  deriving Repr, DecidableEq

/-- BM25Store state: documents is the corpus list, built says whether
self.bm25 is not None (the scorer object itself is the external rank_bm25
primitive, out of scope per the spec). -/
structure BM25Store where
  documents : List Doc
  built : Bool
  deriving Repr, DecidableEq

/-- Stable ascending argsort of the score vector, by the lexicographic
order (score, position): the model of numpy argsort used here, matching
numpy for arrays small enough to be insertion-sorted and fixing the
otherwise unspecified order of equal scores. -/
def argsortAsc (scores : List ℚ) : List ℕ :=
  haveI : DecidableRel fun i j : ℕ =>
      scores.getD i 0 < scores.getD j 0 ∨
        (scores.getD i 0 = scores.getD j 0 ∧ i ≤ j) :=
    fun _ _ => inferInstanceAs (Decidable (_ ∨ _))
  (List.range scores.length).insertionSort fun i j =>
    scores.getD i 0 < scores.getD j 0 ∨
      (scores.getD i 0 = scores.getD j 0 ∧ i ≤ j)

/-- The Python slice l[-k:]: for k = 0 this is l[0:], the whole list
(negative zero is zero), otherwise the last k elements. -/
def pySliceLast (k : ℕ) (l : List ℕ) : List ℕ :=
  if k = 0 then l else l.drop (l.length - k)

/-- BM25Store.search. scores stands for self.bm25.get_scores applied to
the tokenized query, one score per corpus document (the scoring function
is the external library primitive). Raises ValueError when the index has
not been built. -/
def BM25Store.search (st : BM25Store) (scores : List ℚ) (topK : ℕ) :
    Except String (List BMResult) :=
  if st.built = false then
    .error "Index not built. Call build_index() first."
  else
    let topIndices := (pySliceLast topK (argsortAsc scores)).reverse
    .ok <| topIndices.filterMap fun idx =>
      if 0 < scores.getD idx 0 then
        some { idx := idx, score := scores.getD idx 0 }
      else none

/-! ### Reranker Client: CohereReranker -/

/-- One entry of the Cohere rerank service response. -/
structure RerankItem where
  index : ℕ
  relevance_score : ℚ
  deriving Repr, DecidableEq

/-- CohereReranker.rerank. svc is the reply of the external service call
(the try block); on an exception the fallback returns the first top_n
input documents unchanged. top_n = 0 falls through to selfTopN because
Python (top_n or self.top_n) treats 0 as falsy. Service item indices are
assumed in range (service contract), modelled with a default lookup. -/
def rerank (query : String) (documents : List Doc) (top_n selfTopN : ℕ)
    (svc : Except Unit (List RerankItem)) : List Doc :=
  let _ := query
  if documents.isEmpty then []
  else
    let topN := if top_n = 0 then selfTopN else top_n
    match svc with
    | .ok results => results.map fun r =>
        { documents.getD r.index default with
            rerank_score := some r.relevance_score,
            rerank_index := some r.index }
    | .error _ => documents.take topN

/-- CohereReranker.rerank_with_threshold: rerank, then keep the documents
whose rerank_score (0 when the key is absent) is at least the threshold. -/
def rerankWithThreshold (query : String) (documents : List Doc)
    (threshold : ℚ) (top_n selfTopN : ℕ)
    (svc : Except Unit (List RerankItem)) : List Doc :=
  (rerank query documents top_n selfTopN svc).filter fun d =>
    threshold ≤ d.rerank_score.getD 0

/-! ### Answer Synthesizer: RAGGenerator -/

/-- A citation dictionary: source, page, extraction method. -/
structure Citation where
  source : String
  page : String
  method : String
  deriving Repr, DecidableEq

/-- A context_used entry: source, page, relevance score. -/
structure CtxDoc where
  source : String
  page : String
  score : ℚ
  deriving Repr, DecidableEq

/-- The generate result dictionary. Option fields model keys that the
code only sometimes writes (the empty-context and failure branches write
fewer keys). errorMsg models the "error" key of the failure branch. -/
structure GenOutcome where
  answer : String
  citations : List Citation
  context_used : List CtxDoc
  model : Option String
  confidence : Option ℚ
  confidence_level : Option String
  errorMsg : Option String
  deriving Repr, DecidableEq

def noDocsAnswer : String :=
  "I don\x27t have any relevant documents to answer this question."

def genFailureAnswer : String :=
  "I encountered an error generating the answer. Please try again."

/-- settings.openai_model default. -/
def openaiModel : String := "gpt-4-turbo-preview"

/-- settings.rag_context_window default. -/
def ragContextWindow : ℕ := 4000

/-- doc.get("rerank_score", doc.get("rrf_score", 0)). -/
def relevanceScore (d : Doc) : ℚ := d.rerank_score.getD (d.rrf_score.getD 0)

/-- One block of RAGGenerator._build_context_string: the f-string
"newline [Document idx] newline Source: ... newline Page: ... newline
Content: ... newline newline" with the metadata defaults of the code. -/
def docBlock (idx : ℕ) (d : Doc) : String :=
  "\n[Document " ++ toString idx ++ "]\nSource: " ++
    d.metadata.source.getD "Unknown" ++ "\nPage: " ++
    d.metadata.page.getD "N/A" ++ "\nContent: " ++ d.content ++ "\n\n"

/-- The loop of _build_context_string: walk the enumerated documents,
stop (break) at the first block that would push the accumulated block
length beyond maxLength. -/
def contextBlocks : List (ℕ × Doc) → ℕ → ℕ → List String
  | [], _, _ => []
  | (idx, d) :: rest, total, maxLength =>
      let s := docBlock idx d
      if maxLength < total + s.length then []
      else s :: contextBlocks rest (total + s.length) maxLength

/-- RAGGenerator._build_context_string: the kept blocks joined with a
newline separator. -/
def buildContextString (documents : List Doc) (maxLength : ℕ) : String :=
  String.intercalate "\n" (contextBlocks (documents.enumFrom 1) 0 maxLength)

/-- RAGGenerator._extract_citations. m1 and m2 stand for re.findall of
the two citation patterns over the answer text (the regular-expression
engine is the external primitive; group values arrive already stripped).
When both patterns yield nothing, up to 3 citations are inferred from the
leading context documents. -/
def extractCitations (m1 : List (String × String)) (m2 : List String)
    (context_documents : List Doc) : List Citation :=
  let c1 := m1.map fun m => Citation.mk m.1 m.2 "explicit"
  let c2 := m2.map fun s => Citation.mk s "N/A" "explicit"
  let cs := c1 ++ c2
  if cs.isEmpty then
    (context_documents.take 3).map fun d =>
      Citation.mk (d.metadata.source.getD "Unknown")
        (d.metadata.page.getD "N/A") "inferred"
  else cs

/-- context_used entry built by generate. -/
def ctxOf (d : Doc) : CtxDoc :=
  CtxDoc.mk (d.metadata.source.getD "unknown") (d.metadata.page.getD "N/A")
    (relevanceScore d)

/-- The dictionary returned by generate when no context documents are
supplied (note: no model, confidence or error keys). -/
def noDocsOutcome : GenOutcome :=
  { answer := noDocsAnswer, citations := [], context_used := [],
    model := none, confidence := none, confidence_level := none,
    errorMsg := none }

/-- RAGGenerator.generate. llm is the external generation capability
(context string and question to answer text, or an exception); m1 and m2
are the findall primitives over the produced answer. -/
def generate (question : String) (context_documents : List Doc)
    (maxContextLength : ℕ) (llm : String → String → Except Unit String)
    (m1 : String → List (String × String)) (m2 : String → List String) :
    GenOutcome :=
  if context_documents.isEmpty then noDocsOutcome
  else
    let contextStr := buildContextString context_documents maxContextLength
    match llm contextStr question with
    | .error _ =>
        { answer := genFailureAnswer, citations := [], context_used := [],
          model := none, confidence := none, confidence_level := none,
          errorMsg := some "generation failed" }
    | .ok answer =>
        { answer := answer,
          citations := extractCitations (m1 answer) (m2 answer)
            context_documents,
          context_used := context_documents.map ctxOf,
          model := some openaiModel, confidence := none,
          confidence_level := none, errorMsg := none }

/-- RAGGenerator.generate_with_confidence: generate (with the default
context window), then attach the confidence value and level. -/
def generateWithConfidence (question : String)
    (context_documents : List Doc)
    (llm : String → String → Except Unit String)
    (m1 : String → List (String × String)) (m2 : String → List String) :
    GenOutcome :=
  let result := generate question context_documents ragContextWindow llm m1 m2
  let confidence : ℚ :=
    if context_documents.isEmpty then 0
    else
      let top_scores := (context_documents.take 3).map relevanceScore
      let avg_score :=
        if top_scores.isEmpty then 0
        else top_scores.sum / (top_scores.length : ℚ)
      let doc_bonus := min ((context_documents.length : ℚ) / 5) (2/10)
      let citation_bonus : ℚ := if result.citations.isEmpty then 0 else 1/10
      min (avg_score + doc_bonus + citation_bonus) 1
  { result with
      confidence := some confidence,
      confidence_level := some
        (if 7/10 ≤ confidence then "high"
         else if 4/10 ≤ confidence then "medium" else "low") }

/-- Modelled from the spec: the confidence formula of section 4.5,
min(1, avg of the top-3 relevance scores + doc_count_bonus +
citation_bonus) with doc_count_bonus = min(passage_count / 5, 0.2) and
citation_bonus = 0.1 exactly when a citation was produced. -/
def specConfidence (passages : List Doc) (anyCitation : Bool) : ℚ :=
  let top := (passages.take 3).map relevanceScore
  let avg := if top.isEmpty then 0 else top.sum / (top.length : ℚ)
  min 1 (avg + min ((passages.length : ℚ) / 5) (2/10) +
    (if anyCitation then 1/10 else 0))

/-- Modelled from the spec: the level mapping of section 4.5. -/
def specLevel (c : ℚ) : String :=
  if 7/10 ≤ c then "high" else if 4/10 ≤ c then "medium" else "low"

/-! ### Retrieval Orchestrator: routes.query_rag -/

def noResultsAnswer : String :=
  "I couldn\x27t find any relevant documents to answer your question. Please try rephrasing or check if documents have been ingested."

/-- The QueryResponse pydantic model (processing_time, wall-clock, is not
modelled). confidence defaults to None when not supplied. -/
structure QueryResponse where
  question : String
  answer : String
  citations : List Citation
  context_used : List CtxDoc
  confidence : Option ℚ
  confidence_level : Option String
  model : String
  deriving Repr, DecidableEq

instance {α β : Type} [DecidableEq α] [DecidableEq β] :
    DecidableEq (Except α β)
  | .ok a, .ok b =>
      if h : a = b then .isTrue (by rw [h])
      else .isFalse (fun he => h (by cases he; rfl))
  | .error a, .error b =>
      if h : a = b then .isTrue (by rw [h])
      else .isFalse (fun he => h (by cases he; rfl))
  | .ok _, .error _ => .isFalse (fun he => by cases he)
  | .error _, .ok _ => .isFalse (fun he => by cases he)

/-- The fixed early-return QueryResponse of the empty-retrieval branch:
confidence is not passed, so it keeps its None default. -/
def noResultsResponse (q : String) : QueryResponse :=
  { question := q, answer := noResultsAnswer, citations := [],
    context_used := [], confidence := none, confidence_level := none,
    model := openaiModel }

/-- The outcome of the query_rag route body: the HTTP-level result (ok,
or error for an uncaught exception turned into a 500) plus whether the
reranker and the generator were reached on the taken control path. -/
structure QueryOutcome where
  response : Except String QueryResponse
  rerankerInvoked : Bool
  generatorInvoked : Bool
  deriving Repr, DecidableEq

/-- routes.query_rag after the hybrid-retrieval call: retrievalResults is
the value of hybrid_retriever.retrieve, svc the rerank service reply, llm
and m1 and m2 the generation primitives. An early return with the fixed
no-documents text happens before the reranker when retrieval is empty;
otherwise rerank with top_n = request.top_k, then generate (with or
without confidence), then read result["model"] (a KeyError, surfacing as
a 500, when that key is absent). -/
def queryRag (question : String) (topK : ℕ) (includeConfidence : Bool)
    (selfTopN : ℕ) (retrievalResults : List Doc)
    (svc : Except Unit (List RerankItem))
    (llm : String → String → Except Unit String)
    (m1 : String → List (String × String)) (m2 : String → List String) :
    QueryOutcome :=
  if retrievalResults.isEmpty then
    { response := .ok (noResultsResponse question),
      rerankerInvoked := false, generatorInvoked := false }
  else
    let reranked := rerank question retrievalResults topK selfTopN svc
    let result :=
      if includeConfidence then
        generateWithConfidence question reranked llm m1 m2
      else generate question reranked ragContextWindow llm m1 m2
    match result.model with
    | some m =>
        { response := .ok
            { question := question, answer := result.answer,
              citations := result.citations,
              context_used := result.context_used,
              confidence := result.confidence,
              confidence_level := result.confidence_level, model := m },
          rerankerInvoked := true, generatorInvoked := true }
    | none =>
        { response := .error "KeyError: model",
          rerankerInvoked := true, generatorInvoked := true }

/-- Scaling every raw score of a result list by a constant (list order
unchanged), for the rank-only property. -/
def scaleScores (c : ℚ) (l : List Doc) : List Doc :=
  l.map fun d => { d with score := c * d.score }

/-! ### Concrete documents used in witnesses and counterexamples -/

def dA : Doc := { id := "A", content := "ta" }
def dB : Doc := { id := "B", content := "tb" }
def dC : Doc := { id := "C", content := "tc" }
def dD : Doc := { id := "D", content := "td" }

/-- The same passage id carried by the dense (vector) list... -/
def dXv : Doc := { id := "X", content := "densetext" }

/-- ...and by the sparse (bm25) list, with a different payload. -/
def dXb : Doc := { id := "X", content := "sparsetext" }

/-! ### Helper lemmas about the fusion embedding -/

theorem sortKeyDesc_perm (f : String → ℚ) (l : List String) :
    (sortKeyDesc f l).Perm l := by
  unfold sortKeyDesc
  exact List.perm_insertionSort _ l

theorem sortKeyDesc_sorted (f : String → ℚ) (l : List String) :
    (sortKeyDesc f l).Pairwise fun a b => f b ≤ f a := by
  unfold sortKeyDesc
  haveI : IsTotal String fun a b => f b ≤ f a :=
    ⟨fun a b => le_total (f b) (f a)⟩
  haveI : IsTrans String fun a b => f b ≤ f a :=
    ⟨fun _ _ _ h1 h2 => le_trans h2 h1⟩
  exact List.sorted_insertionSort _ l

theorem filterMap_enumFrom_eq_nil (res : List Doc) (i : String) :
    ∀ n, (((res.enumFrom n).filterMap fun p =>
      if p.2.id = i then some p.1 else none) = []) ↔ i ∉ res.map Doc.id := by
  induction res with
  | nil => simp
  | cons d t ih =>
    intro n
    by_cases h : d.id = i
    · simp [List.enumFrom_cons, List.filterMap_cons, h]
    · have h' : ¬(i = d.id) := fun he => h he.symm
      simp [List.enumFrom_cons, List.filterMap_cons, h, h', ih (n + 1)]

theorem filterMap_enumFrom_of_nodup (i : String) :
    ∀ (res : List Doc) (n : ℕ), (res.map Doc.id).Nodup →
      i ∈ res.map Doc.id →
      ((res.enumFrom n).filterMap fun p =>
        if p.2.id = i then some p.1 else none) =
          [n + (res.map Doc.id).indexOf i]
  | [], _, _, hm => by simp at hm
  | d :: t, n, h, hm => by
    rw [List.map_cons] at h hm
    by_cases hd : d.id = i
    · have hni : i ∉ t.map Doc.id := by
        rw [← hd]
        exact (List.nodup_cons.mp h).1
      have ht := (filterMap_enumFrom_eq_nil t i (n + 1)).mpr hni
      simp [List.enumFrom_cons, List.filterMap_cons, hd, ht,
        List.indexOf_cons_self]
    · have h' : ¬(i = d.id) := fun he => hd he.symm
      have hm' : i ∈ t.map Doc.id := (List.mem_cons.mp hm).resolve_left h'
      have hn' : (t.map Doc.id).Nodup := (List.nodup_cons.mp h).2
      rw [List.enumFrom_cons]
      rw [List.filterMap_cons_none (by simp [hd])]
      rw [filterMap_enumFrom_of_nodup i t (n + 1) hn' hm', List.map_cons,
        List.indexOf_cons_ne _ hd]
      congr 1
      omega

theorem dictRank_eq_none (res : List Doc) (i : String) :
    dictRank res i = none ↔ i ∉ res.map Doc.id := by
  unfold dictRank
  rw [List.enum_eq_enumFrom, List.getLast?_eq_none_iff,
    filterMap_enumFrom_eq_nil res i 0]

theorem dictRank_of_nodup (res : List Doc) (i : String)
    (h : (res.map Doc.id).Nodup) (hm : i ∈ res.map Doc.id) :
    dictRank res i = some ((res.map Doc.id).indexOf i) := by
  unfold dictRank
  rw [List.enum_eq_enumFrom, filterMap_enumFrom_of_nodup i res 0 h hm]
  simp

theorem dictRank_isSome (res : List Doc) (i : String) :
    (dictRank res i).isSome = true ↔ i ∈ res.map Doc.id := by
  rw [Option.isSome_iff_ne_none]
  constructor
  · intro hne
    by_contra hmem
    exact hne ((dictRank_eq_none res i).mpr hmem)
  · intro hmem hno
    exact (dictRank_eq_none res i).mp hno hmem

theorem rrfScore_eq_spec (wv wb : ℚ) (k : ℕ) (vres bres : List Doc)
    (hv : (vres.map Doc.id).Nodup) (hb : (bres.map Doc.id).Nodup)
    (i : String) :
    rrfScore wv wb k vres bres i =
      specRRF wb wv k (bres.map Doc.id) (vres.map Doc.id) i := by
  unfold rrfScore specRRF
  by_cases h1 : i ∈ vres.map Doc.id <;> by_cases h2 : i ∈ bres.map Doc.id
  · rw [dictRank_of_nodup vres i hv h1, dictRank_of_nodup bres i hb h2]
    simp only [h1, h2, if_pos]
    ring
  · rw [dictRank_of_nodup vres i hv h1, (dictRank_eq_none bres i).mpr h2]
    simp only [h1, h2, if_pos, if_neg, ite_true, ite_false]
    ring
  · rw [(dictRank_eq_none vres i).mpr h1, dictRank_of_nodup bres i hb h2]
    simp only [h1, h2, ite_true, ite_false]
    ring
  · rw [(dictRank_eq_none vres i).mpr h1, (dictRank_eq_none bres i).mpr h2]
    simp [h1, h2]

theorem docFor_id {vres bres : List Doc} {i : String} {d : Doc}
    (h : docFor vres bres i = some d) : d.id = i := by
  unfold docFor at h
  split at h <;> simpa using List.find?_some h

theorem docFor_isSome {vres bres : List Doc} {i : String}
    (h : i ∈ vres.map Doc.id ∨ i ∈ bres.map Doc.id) :
    (docFor vres bres i).isSome = true := by
  unfold docFor
  by_cases hv : i ∈ vres.map Doc.id
  · rw [if_pos ((dictRank_isSome vres i).mpr hv)]
    rcases List.mem_map.mp hv with ⟨d, hd, hid⟩
    exact List.find?_isSome.mpr ⟨d, hd, by simp [hid]⟩
  · have hb : i ∈ bres.map Doc.id := h.resolve_left hv
    rw [if_neg (by simp [Option.isSome_iff_ne_none, dictRank_eq_none, hv])]
    rcases List.mem_map.mp hb with ⟨d, hd, hid⟩
    exact List.find?_isSome.mpr ⟨d, hd, by simp [hid]⟩

theorem fuseUpd_id (vres bres : List Doc) (wv wb : ℚ) (k : ℕ) (i : String)
    (d : Doc) : (fuseUpd vres bres wv wb k i d).id = d.id := rfl

theorem filterMap_docFor_map_id (vres bres : List Doc) (wv wb : ℚ) (k : ℕ) :
    ∀ l : List String,
      (∀ i ∈ l, i ∈ vres.map Doc.id ∨ i ∈ bres.map Doc.id) →
      (l.filterMap fun i =>
        (docFor vres bres i).map (fuseUpd vres bres wv wb k i)).map Doc.id = l
  | [], _ => rfl
  | a :: t, h => by
    have ha := h a (List.mem_cons_self a t)
    obtain ⟨d, hd⟩ := Option.isSome_iff_exists.mp (docFor_isSome ha)
    rw [List.filterMap_cons_some (show _ = some (fuseUpd vres bres wv wb k a d)
      from by rw [hd]; rfl)]
    rw [List.map_cons, fuseUpd_id, docFor_id hd,
      filterMap_docFor_map_id vres bres wv wb k t
        fun i hi => h i (List.mem_cons_of_mem a hi)]

theorem fusion_map_id (vres bres : List Doc) (topK k : ℕ) (wv wb : ℚ)
    (allIds : List String)
    (hmem : ∀ i ∈ allIds, i ∈ vres.map Doc.id ∨ i ∈ bres.map Doc.id) :
    (reciprocalRankFusion vres bres topK k wv wb allIds).map Doc.id =
      (sortKeyDesc (rrfScore wv wb k vres bres) allIds).take topK := by
  unfold reciprocalRankFusion
  exact filterMap_docFor_map_id vres bres wv wb k _ fun i hi =>
    hmem i ((sortKeyDesc_perm _ allIds).mem_iff.mp (List.mem_of_mem_take hi))

theorem fusion_mem_elim {vres bres : List Doc} {topK k : ℕ} {wv wb : ℚ}
    {allIds : List String} {d : Doc}
    (hd : d ∈ reciprocalRankFusion vres bres topK k wv wb allIds) :
    ∃ i ∈ (sortKeyDesc (rrfScore wv wb k vres bres) allIds).take topK,
      ∃ b, docFor vres bres i = some b ∧
        d = fuseUpd vres bres wv wb k i b := by
  unfold reciprocalRankFusion at hd
  obtain ⟨i, hi, hmap⟩ := List.mem_filterMap.mp hd
  obtain ⟨b, hb, hupd⟩ := Option.map_eq_some'.mp hmap
  exact ⟨i, hi, b, hb, hupd.symm⟩

/-! ### C1 -/

/-- C1: for candidate lists with duplicate-free id sets and any
enumeration allIds of the union of the two id sets (Python set iteration
order), the fusion assigns every returned passage the spec RRF score of
its identifier, and returns duplicate-free identifiers sorted descending
by fused score, truncated to the top topK: the length is min topK
(number of candidate ids) and every omitted candidate scores no more
than every returned one. -/
theorem rrf_fusion_scores_sorted_topK
    (vres bres : List Doc) (topK k : ℕ) (wv wb : ℚ) (allIds : List String)
    (hv : (vres.map Doc.id).Nodup) (hb : (bres.map Doc.id).Nodup)
    (ha : allIds.Nodup)
    (hm1 : ∀ i ∈ allIds, i ∈ vres.map Doc.id ∨ i ∈ bres.map Doc.id)
    (hm2 : ∀ i ∈ vres.map Doc.id, i ∈ allIds)
    (hm3 : ∀ i ∈ bres.map Doc.id, i ∈ allIds) :
    (∀ d ∈ reciprocalRankFusion vres bres topK k wv wb allIds,
      d.rrf_score =
        some (specRRF wb wv k (bres.map Doc.id) (vres.map Doc.id) d.id)) ∧
    ((reciprocalRankFusion vres bres topK k wv wb allIds).map Doc.id).Nodup ∧
    (reciprocalRankFusion vres bres topK k wv wb allIds).Pairwise
      (fun a b =>
        specRRF wb wv k (bres.map Doc.id) (vres.map Doc.id) b.id ≤
          specRRF wb wv k (bres.map Doc.id) (vres.map Doc.id) a.id) ∧
    (reciprocalRankFusion vres bres topK k wv wb allIds).length =
      min topK allIds.length ∧
    (∀ i ∈ allIds,
      i ∉ (reciprocalRankFusion vres bres topK k wv wb allIds).map Doc.id →
      ∀ d ∈ reciprocalRankFusion vres bres topK k wv wb allIds,
        specRRF wb wv k (bres.map Doc.id) (vres.map Doc.id) i ≤
          specRRF wb wv k (bres.map Doc.id) (vres.map Doc.id) d.id) := by
  have hmapid := fusion_map_id vres bres topK k wv wb allIds hm1
  have hperm := sortKeyDesc_perm (rrfScore wv wb k vres bres) allIds
  have hpair := sortKeyDesc_sorted (rrfScore wv wb k vres bres) allIds
  have hspec := rrfScore_eq_spec wv wb k vres bres hv hb
  refine ⟨?_, ?_, ?_, ?_, ?_⟩
  · intro d hd
    obtain ⟨i, _, b, hb', rfl⟩ := fusion_mem_elim hd
    show some (rrfScore wv wb k vres bres i) = _
    rw [fuseUpd_id, docFor_id hb', hspec i]
  · rw [hmapid]
    exact List.Nodup.sublist (List.take_sublist _ _) (hperm.nodup_iff.mpr ha)
  · have h1 := hpair.sublist (List.take_sublist topK _)
    rw [← hmapid, List.pairwise_map] at h1
    exact h1.imp fun hab => by rwa [← hspec, ← hspec]
  · have hlen := congrArg List.length hmapid
    rw [List.length_map, List.length_take] at hlen
    rw [hlen, hperm.length_eq]
  · intro i hiall hnot d hd
    have hsplit := List.take_append_drop topK
      (sortKeyDesc (rrfScore wv wb k vres bres) allIds)
    have hp2 : (((sortKeyDesc (rrfScore wv wb k vres bres) allIds).take topK)
        ++ ((sortKeyDesc (rrfScore wv wb k vres bres) allIds).drop topK)).Pairwise
        fun a b => rrfScore wv wb k vres bres b ≤ rrfScore wv wb k vres bres a := by
      rw [hsplit]; exact hpair
    obtain ⟨_, _, hcross⟩ := List.pairwise_append.mp hp2
    have hisorted : i ∈ sortKeyDesc (rrfScore wv wb k vres bres) allIds :=
      hperm.mem_iff.mpr hiall
    have hidrop : i ∈ (sortKeyDesc (rrfScore wv wb k vres bres) allIds).drop
        topK := by
      rcases List.mem_append.mp (by rw [hsplit]; exact hisorted) with h | h
      · exact absurd (hmapid ▸ h) hnot
      · exact h
    have hdid : d.id ∈ (sortKeyDesc (rrfScore wv wb k vres bres) allIds).take
        topK := by
      rw [← hmapid]
      exact List.mem_map_of_mem Doc.id hd
    have := hcross d.id hdid i hidrop
    rwa [hspec, hspec] at this

/-- Witness for C1 at the concrete scenario lists. -/
theorem rrf_fusion_scores_sorted_topK_witness :
    (∀ d ∈ reciprocalRankFusion [dC, dA, dD] [dA, dB, dC] 10 60 (1/2) (1/2)
        ["A", "B", "C", "D"],
      d.rrf_score = some (specRRF (1/2) (1/2) 60
        ([dA, dB, dC].map Doc.id) ([dC, dA, dD].map Doc.id) d.id)) ∧
    ((reciprocalRankFusion [dC, dA, dD] [dA, dB, dC] 10 60 (1/2) (1/2)
        ["A", "B", "C", "D"]).map Doc.id).Nodup ∧
    (reciprocalRankFusion [dC, dA, dD] [dA, dB, dC] 10 60 (1/2) (1/2)
        ["A", "B", "C", "D"]).Pairwise
      (fun a b =>
        specRRF (1/2) (1/2) 60 ([dA, dB, dC].map Doc.id)
            ([dC, dA, dD].map Doc.id) b.id ≤
          specRRF (1/2) (1/2) 60 ([dA, dB, dC].map Doc.id)
            ([dC, dA, dD].map Doc.id) a.id) ∧
    (reciprocalRankFusion [dC, dA, dD] [dA, dB, dC] 10 60 (1/2) (1/2)
        ["A", "B", "C", "D"]).length = min 10 (["A", "B", "C", "D"] : List String).length ∧
    (∀ i ∈ (["A", "B", "C", "D"] : List String),
      i ∉ (reciprocalRankFusion [dC, dA, dD] [dA, dB, dC] 10 60 (1/2) (1/2)
        ["A", "B", "C", "D"]).map Doc.id →
      ∀ d ∈ reciprocalRankFusion [dC, dA, dD] [dA, dB, dC] 10 60 (1/2) (1/2)
        ["A", "B", "C", "D"],
        specRRF (1/2) (1/2) 60 ([dA, dB, dC].map Doc.id)
            ([dC, dA, dD].map Doc.id) i ≤
          specRRF (1/2) (1/2) 60 ([dA, dB, dC].map Doc.id)
            ([dC, dA, dD].map Doc.id) d.id) :=
  rrf_fusion_scores_sorted_topK [dC, dA, dD] [dA, dB, dC] 10 60 (1/2) (1/2)
    ["A", "B", "C", "D"] (by decide) (by decide) (by decide) (by decide)
    (by decide) (by decide)

/-! ### C9 -/

theorem dictRank_scale (c : ℚ) (l : List Doc) (i : String) :
    dictRank (scaleScores c l) i = dictRank l i := by
  unfold dictRank scaleScores
  rw [List.enum_map, List.filterMap_map]
  rfl

theorem docFor_scale (c : ℚ) (vres bres : List Doc) (i : String) :
    docFor (scaleScores c vres) bres i =
      if (dictRank vres i).isSome then
        (vres.find? fun r => r.id = i).map fun d =>
          { d with score := c * d.score }
      else bres.find? fun r => r.id = i := by
  unfold docFor
  rw [dictRank_scale]
  split
  · unfold scaleScores
    rw [List.find?_map]
    rfl
  · rfl

/-- C9: multiplying every raw score of the dense (vector) input list by
a constant leaves the fused ranking — the sequence of fused identifiers
together with their fused scores — exactly unchanged: fusion reads only
ranks, never raw scores. -/
theorem fusion_rank_only (vres bres : List Doc) (topK k : ℕ)
    (wv wb c : ℚ) (allIds : List String) (hc : 0 < c) :
    (reciprocalRankFusion (scaleScores c vres) bres topK k wv wb
        allIds).map (fun d => (d.id, d.rrf_score)) =
      (reciprocalRankFusion vres bres topK k wv wb allIds).map
        fun d => (d.id, d.rrf_score) := by
  clear hc
  have hrrf : rrfScore wv wb k (scaleScores c vres) bres =
      rrfScore wv wb k vres bres := by
    funext i
    unfold rrfScore
    rw [dictRank_scale]
  have hfun : ∀ i : String,
      ((docFor (scaleScores c vres) bres i).map
        (fuseUpd (scaleScores c vres) bres wv wb k i)).map
          (fun d => (d.id, d.rrf_score)) =
      ((docFor vres bres i).map (fuseUpd vres bres wv wb k i)).map
        fun d => (d.id, d.rrf_score) := by
    intro i
    rw [docFor_scale, Option.map_map, Option.map_map]
    unfold docFor
    split
    · rw [Option.map_map]
      apply Option.map_congr
      intro d _
      show (d.id, some (rrfScore wv wb k (scaleScores c vres) bres i)) =
        (d.id, some (rrfScore wv wb k vres bres i))
      rw [hrrf]
    · apply Option.map_congr
      intro d _
      show (d.id, some (rrfScore wv wb k (scaleScores c vres) bres i)) =
        (d.id, some (rrfScore wv wb k vres bres i))
      rw [hrrf]
  unfold reciprocalRankFusion
  rw [hrrf, List.map_filterMap, List.map_filterMap]
  exact List.filterMap_congr fun i _ => hfun i

/-- Witness for C9 at the scenario lists with factor 3. -/
theorem fusion_rank_only_witness :
    0 < (3 : ℚ) ∧
    (reciprocalRankFusion (scaleScores 3 [dC, dA, dD]) [dA, dB, dC] 10 60
        (1/2) (1/2) ["A", "B", "C", "D"]).map (fun d => (d.id, d.rrf_score)) =
      (reciprocalRankFusion [dC, dA, dD] [dA, dB, dC] 10 60 (1/2) (1/2)
        ["A", "B", "C", "D"]).map (fun d => (d.id, d.rrf_score)) :=
  ⟨by norm_num,
   fusion_rank_only [dC, dA, dD] [dA, dB, dC] 10 60 (1/2) (1/2) 3
     ["A", "B", "C", "D"] (by norm_num)⟩

/-! ### C3 -/

theorem rrfScore_some_some {wv wb : ℚ} {k : ℕ} {vres bres : List Doc}
    {i : String} {rv rb : ℕ} (hv : dictRank vres i = some rv)
    (hb : dictRank bres i = some rb) :
    rrfScore wv wb k vres bres i =
      wv / ((k : ℚ) + rv + 1) + wb / ((k : ℚ) + rb + 1) := by
  unfold rrfScore
  rw [hv, hb]

theorem rrfScore_some_none {wv wb : ℚ} {k : ℕ} {vres bres : List Doc}
    {i : String} {rv : ℕ} (hv : dictRank vres i = some rv)
    (hb : dictRank bres i = none) :
    rrfScore wv wb k vres bres i = wv / ((k : ℚ) + rv + 1) := by
  unfold rrfScore
  rw [hv, hb]
  exact add_zero _

theorem rrfScore_none_some {wv wb : ℚ} {k : ℕ} {vres bres : List Doc}
    {i : String} {rb : ℕ} (hv : dictRank vres i = none)
    (hb : dictRank bres i = some rb) :
    rrfScore wv wb k vres bres i = wb / ((k : ℚ) + rb + 1) := by
  unfold rrfScore
  rw [hv, hb]
  exact zero_add _

/-- A list that is a permutation of a strictly descending list and is
itself weakly descending equals that list. -/
theorem eq_of_perm_sorted_strict (f : String → ℚ) :
    ∀ (l₂ l₁ : List String), l₁.Perm l₂ →
      l₁.Pairwise (fun a b => f b ≤ f a) →
      l₂.Pairwise (fun a b => f b < f a) → l₁ = l₂
  | [], _, hp, _, _ => hp.eq_nil
  | _ :: _, [], hp, _, _ => by simpa using hp.length_eq
  | x :: t, y :: s, hp, h1, h2 => by
    have hyx : y = x := by
      by_contra hne
      have hy : y ∈ x :: t := hp.mem_iff.mp (List.mem_cons_self y s)
      have hyt : y ∈ t := (List.mem_cons.mp hy).resolve_left hne
      have hfy : f y < f x := (List.pairwise_cons.mp h2).1 y hyt
      have hx : x ∈ y :: s := hp.mem_iff.mpr (List.mem_cons_self x t)
      have hxs : x ∈ s :=
        (List.mem_cons.mp hx).resolve_left fun he => hne he.symm
      have hfx : f x ≤ f y := (List.pairwise_cons.mp h1).1 x hxs
      exact absurd (lt_of_le_of_lt hfx hfy) (lt_irrefl (f x))
    subst hyx
    have hts : s.Perm t := hp.cons_inv
    rw [eq_of_perm_sorted_strict f t s hts (List.pairwise_cons.mp h1).2
      (List.pairwise_cons.mp h2).2]

/-- The fused output is weakly descending in the fused score, for every
input pair and every enumeration of the id union. -/
theorem fusion_sorted_general (vres bres : List Doc) (topK k : ℕ)
    (wv wb : ℚ) (allIds : List String)
    (hmem : ∀ i ∈ allIds, i ∈ vres.map Doc.id ∨ i ∈ bres.map Doc.id) :
    (reciprocalRankFusion vres bres topK k wv wb allIds).Pairwise
      fun a b => rrfScore wv wb k vres bres b.id ≤
        rrfScore wv wb k vres bres a.id := by
  have h1 := (sortKeyDesc_sorted (rrfScore wv wb k vres bres)
    allIds).sublist (List.take_sublist topK _)
  rw [← fusion_map_id vres bres topK k wv wb allIds hmem,
    List.pairwise_map] at h1
  exact h1

/-- C3 amended: the fused list is weakly (not strictly) descending by
fused score, and equal scores follow the enumeration order of the id
set union, which the code leaves unspecified, rather than the
sparse-then-dense first-seen order; in the spec scenario all four fused
scores are distinct (the spec ties A with C by a rank miscalculation:
the sparse rank of C is 2, not 1), so the fused order is exactly
A, C, B, D for every enumeration of the id set. -/
theorem fused_order_weakly_sorted_and_scenario :
    (∀ (vres bres : List Doc) (topK k : ℕ) (wv wb : ℚ)
        (allIds : List String),
      (∀ i ∈ allIds, i ∈ vres.map Doc.id ∨ i ∈ bres.map Doc.id) →
      (reciprocalRankFusion vres bres topK k wv wb allIds).Pairwise
        fun a b => rrfScore wv wb k vres bres b.id ≤
          rrfScore wv wb k vres bres a.id) ∧
    (∀ e : List String, e.Nodup →
      (∀ i ∈ e, i ∈ [dC, dA, dD].map Doc.id ∨ i ∈ [dA, dB, dC].map Doc.id) →
      (∀ i ∈ [dC, dA, dD].map Doc.id, i ∈ e) →
      (∀ i ∈ [dA, dB, dC].map Doc.id, i ∈ e) →
      (reciprocalRankFusion [dC, dA, dD] [dA, dB, dC] 10 60 (1/2) (1/2)
        e).map Doc.id = ["A", "C", "B", "D"]) := by
  refine ⟨fusion_sorted_general, ?_⟩
  intro e hn hm1 hm2 hm3
  have hperm : e.Perm ["A", "B", "C", "D"] := by
    apply List.Subperm.antisymm
    · apply List.subperm_of_subset hn
      intro i hi
      rcases hm1 i hi with h | h <;> (simp [dA, dB, dC, dD] at h ⊢; tauto)
    · apply List.subperm_of_subset (by decide)
      intro i hi
      simp at hi
      rcases hi with rfl | rfl | rfl | rfl
      · exact hm3 "A" (by decide)
      · exact hm3 "B" (by decide)
      · exact hm2 "C" (by decide)
      · exact hm2 "D" (by decide)
  have hmap := fusion_map_id [dC, dA, dD] [dA, dB, dC] 10 60 (1/2) (1/2)
    e hm1
  have hpsort : (sortKeyDesc (rrfScore (1/2) (1/2) 60 [dC, dA, dD]
      [dA, dB, dC]) e).Perm ["A", "C", "B", "D"] :=
    (sortKeyDesc_perm _ e).trans (hperm.trans (by decide))
  have fA : rrfScore (1/2) (1/2) 60 [dC, dA, dD] [dA, dB, dC] "A" =
      123/7564 := by
    rw [rrfScore_some_some (show dictRank [dC, dA, dD] "A" = some 1 from rfl)
      (show dictRank [dA, dB, dC] "A" = some 0 from rfl)]
    norm_num
  have fB : rrfScore (1/2) (1/2) 60 [dC, dA, dD] [dA, dB, dC] "B" =
      1/124 := by
    rw [rrfScore_none_some (show dictRank [dC, dA, dD] "B" = none from rfl)
      (show dictRank [dA, dB, dC] "B" = some 1 from rfl)]
    norm_num
  have fC : rrfScore (1/2) (1/2) 60 [dC, dA, dD] [dA, dB, dC] "C" =
      62/3843 := by
    rw [rrfScore_some_some (show dictRank [dC, dA, dD] "C" = some 0 from rfl)
      (show dictRank [dA, dB, dC] "C" = some 2 from rfl)]
    norm_num
  have fD : rrfScore (1/2) (1/2) 60 [dC, dA, dD] [dA, dB, dC] "D" =
      1/126 := by
    rw [rrfScore_some_none (show dictRank [dC, dA, dD] "D" = some 2 from rfl)
      (show dictRank [dA, dB, dC] "D" = none from rfl)]
    norm_num
  have hstrict : (["A", "C", "B", "D"] : List String).Pairwise
      (fun a b => rrfScore (1/2) (1/2) 60 [dC, dA, dD] [dA, dB, dC] b <
        rrfScore (1/2) (1/2) 60 [dC, dA, dD] [dA, dB, dC] a) := by
    refine List.Pairwise.cons ?_ (List.Pairwise.cons ?_
      (List.Pairwise.cons ?_ (List.Pairwise.cons ?_ List.Pairwise.nil)))
    · intro b hb
      simp only [List.mem_cons, List.not_mem_nil, or_false] at hb
      rcases hb with rfl | rfl | rfl
      · rw [fA, fC]; norm_num
      · rw [fA, fB]; norm_num
      · rw [fA, fD]; norm_num
    · intro b hb
      simp only [List.mem_cons, List.not_mem_nil, or_false] at hb
      rcases hb with rfl | rfl
      · rw [fC, fB]; norm_num
      · rw [fC, fD]; norm_num
    · intro b hb
      simp only [List.mem_cons, List.not_mem_nil, or_false] at hb
      rcases hb with rfl
      rw [fB, fD]; norm_num
    · intro b hb
      exact absurd hb (List.not_mem_nil b)
  have heq := eq_of_perm_sorted_strict
    (rrfScore (1/2) (1/2) 60 [dC, dA, dD] [dA, dB, dC])
    ["A", "C", "B", "D"] _ hpsort (sortKeyDesc_sorted _ e) hstrict
  have hlen : (sortKeyDesc (rrfScore (1/2) (1/2) 60 [dC, dA, dD]
      [dA, dB, dC]) e).length ≤ 10 := by
    rw [(sortKeyDesc_perm _ e).length_eq, hperm.length_eq]
    decide
  rw [hmap, List.take_of_length_le hlen, heq]

/-- Witness for C3 amended: the general sortedness at the scenario
input, and the scenario conclusion at the enumeration A, B, C, D. -/
theorem fused_order_weakly_sorted_and_scenario_witness :
    (reciprocalRankFusion [dC, dA, dD] [dA, dB, dC] 10 60 (1/2) (1/2)
      ["A", "B", "C", "D"]).Pairwise
      (fun a b => rrfScore (1/2) (1/2) 60 [dC, dA, dD] [dA, dB, dC] b.id ≤
        rrfScore (1/2) (1/2) 60 [dC, dA, dD] [dA, dB, dC] a.id) ∧
    (reciprocalRankFusion [dC, dA, dD] [dA, dB, dC] 10 60 (1/2) (1/2)
      ["A", "B", "C", "D"]).map Doc.id = ["A", "C", "B", "D"] :=
  ⟨fused_order_weakly_sorted_and_scenario.1 [dC, dA, dD] [dA, dB, dC]
     10 60 (1/2) (1/2) ["A", "B", "C", "D"] (by decide),
   fused_order_weakly_sorted_and_scenario.2 ["A", "B", "C", "D"]
     (by decide) (by decide) (by decide) (by decide)⟩

/-- C3 counterexample: with sparse list [A] and dense list [B] (equal
weights, k = 60) the ids A and B tie exactly, the enumeration B, A is a
valid iteration order of the two-element id set union, and the fused
order is then B, A — not the sparse-first order A, B the claim
requires. -/
theorem fused_tie_not_sparse_first :
    (["B", "A"] : List String).Nodup ∧
    (∀ i ∈ ["B", "A"], i ∈ [dB].map Doc.id ∨ i ∈ [dA].map Doc.id) ∧
    (∀ i ∈ [dB].map Doc.id, i ∈ ["B", "A"]) ∧
    (∀ i ∈ [dA].map Doc.id, i ∈ ["B", "A"]) ∧
    rrfScore (1/2) (1/2) 60 [dB] [dA] "A" =
      rrfScore (1/2) (1/2) 60 [dB] [dA] "B" ∧
    (reciprocalRankFusion [dB] [dA] 10 60 (1/2) (1/2) ["B", "A"]).map
      Doc.id = ["B", "A"] ∧
    (reciprocalRankFusion [dB] [dA] 10 60 (1/2) (1/2) ["B", "A"]).map
      Doc.id ≠ ["A", "B"] := by
  have gA : rrfScore (1/2) (1/2) 60 [dB] [dA] "A" = 1/122 := by
    rw [rrfScore_none_some (show dictRank [dB] "A" = none from rfl)
      (show dictRank [dA] "A" = some 0 from rfl)]
    norm_num
  have gB : rrfScore (1/2) (1/2) 60 [dB] [dA] "B" = 1/122 := by
    rw [rrfScore_some_none (show dictRank [dB] "B" = some 0 from rfl)
      (show dictRank [dA] "B" = none from rfl)]
    norm_num
  have hsort : sortKeyDesc (rrfScore (1/2) (1/2) 60 [dB] [dA])
      ["B", "A"] = ["B", "A"] := by
    unfold sortKeyDesc
    simp only [List.insertionSort, List.orderedInsert]
    rw [if_pos]
    rw [gA, gB]
  have hmap := fusion_map_id [dB] [dA] 10 60 (1/2) (1/2) ["B", "A"]
    (by decide)
  have hout : (reciprocalRankFusion [dB] [dA] 10 60 (1/2) (1/2)
      ["B", "A"]).map Doc.id = ["B", "A"] := by
    rw [hmap, hsort]
    rfl
  refine ⟨by decide, by decide, by decide, by decide, ?_, hout, ?_⟩
  · rw [gA, gB]
  · rw [hout]
    decide

/-! ### C7 -/

/-- C7 amended: the payload attached to a fused result whose id occurs
in the dense (vector) list is the first matching dictionary of the
vector list — the vector list is checked before the sparse list, so for
an id present in both lists the payload comes from the dense side. -/
theorem fused_payload_from_dense (vres bres : List Doc) (topK k : ℕ)
    (wv wb : ℚ) (allIds : List String) (d : Doc)
    (hd : d ∈ reciprocalRankFusion vres bres topK k wv wb allIds)
    (hv : d.id ∈ vres.map Doc.id) :
    ∃ b, vres.find? (fun r => r.id = d.id) = some b ∧
      d.content = b.content ∧ d.metadata = b.metadata ∧
      d.score = b.score ∧ d.id = b.id := by
  obtain ⟨i, _, b, hb, rfl⟩ := fusion_mem_elim hd
  have hbi : b.id = i := docFor_id hb
  have hvm : i ∈ vres.map Doc.id := by
    rw [← hbi]
    exact hv
  unfold docFor at hb
  rw [if_pos ((dictRank_isSome vres i).mpr hvm)] at hb
  refine ⟨b, ?_, rfl, rfl, rfl, rfl⟩
  show vres.find? (fun r => r.id = b.id) = some b
  rw [hbi]
  exact hb

/-- Witness for C7 amended at an id present in both input lists. -/
theorem fused_payload_from_dense_witness :
    ∃ b, [dXv].find? (fun r =>
        r.id = (fuseUpd [dXv] [dXb] (1/2) (1/2) 60 "X" dXv).id) = some b ∧
      (fuseUpd [dXv] [dXb] (1/2) (1/2) 60 "X" dXv).content = b.content ∧
      (fuseUpd [dXv] [dXb] (1/2) (1/2) 60 "X" dXv).metadata = b.metadata ∧
      (fuseUpd [dXv] [dXb] (1/2) (1/2) 60 "X" dXv).score = b.score ∧
      (fuseUpd [dXv] [dXb] (1/2) (1/2) 60 "X" dXv).id = b.id :=
  fused_payload_from_dense [dXv] [dXb] 10 60 (1/2) (1/2) ["X"]
    (fuseUpd [dXv] [dXb] (1/2) (1/2) 60 "X" dXv)
    (List.mem_cons_self _ _) (by decide)

/-- C7 counterexample: the id X occurs in both input lists with
different contents; the fused payload is the dense (vector) one, not
the sparse one the claim requires. -/
theorem fused_payload_not_from_sparse :
    (reciprocalRankFusion [dXv] [dXb] 10 60 (1/2) (1/2) ["X"]).map
      Doc.content = ["densetext"] ∧
    dXb.content = "sparsetext" ∧ ("densetext" : String) ≠ "sparsetext" :=
  ⟨rfl, rfl, by decide⟩

/-! ### C4 -/

/-- C4: when the rerank service call fails, the error is absorbed and
the first top_n input documents are returned unchanged, in their
original order (top_n positive; a zero top_n would fall through to the
configured self.top_n by Python truthiness). -/
theorem rerank_failure_returns_head (query : String) (documents : List Doc)
    (top_n selfTopN : ℕ) (e : Unit) (hne : documents ≠ [])
    (hpos : 0 < top_n) :
    rerank query documents top_n selfTopN (.error e) =
      documents.take top_n := by
  obtain ⟨d, t, rfl⟩ : ∃ d t, documents = d :: t := by
    cases documents with
    | nil => exact absurd rfl hne
    | cons d t => exact ⟨d, t, rfl⟩
  have h0 : ¬(top_n = 0) := Nat.pos_iff_ne_zero.mp hpos
  simp [rerank, h0]

/-- Witness for C4: three candidates, top_n two, failing service. -/
theorem rerank_failure_returns_head_witness :
    rerank "q" [dA, dB, dC] 2 10 (.error ()) = [dA, dB, dC].take 2 :=
  rerank_failure_returns_head "q" [dA, dB, dC] 2 10 () (by decide)
    (by decide)

/-! ### C10 -/

/-- C10: when the rerank service call fails and the threshold is
positive, rerank_with_threshold returns the empty list: the fallback
documents carry no rerank_score key, the filter reads the missing score
as 0, and 0 is below the threshold. -/
theorem rerank_with_threshold_failure_empty (query : String)
    (documents : List Doc) (threshold : ℚ) (top_n selfTopN : ℕ) (e : Unit)
    (hne : documents ≠ []) (hthr : 0 < threshold)
    (hns : ∀ d ∈ documents, d.rerank_score = none) :
    rerankWithThreshold query documents threshold top_n selfTopN
      (.error e) = [] := by
  obtain ⟨d0, t, rfl⟩ : ∃ d0 t, documents = d0 :: t := by
    cases documents with
    | nil => exact absurd rfl hne
    | cons d0 t => exact ⟨d0, t, rfl⟩
  unfold rerankWithThreshold
  have hr : rerank query (d0 :: t) top_n selfTopN (.error e) =
      (d0 :: t).take (if top_n = 0 then selfTopN else top_n) := by
    simp [rerank]
  rw [hr, List.filter_eq_nil_iff]
  intro d hd
  have hdm : d ∈ d0 :: t := List.mem_of_mem_take hd
  simp only [hns d hdm, Option.getD_none, decide_eq_true_eq]
  exact not_le.mpr hthr

/-- Witness for C10: two candidates without rerank scores, threshold 1,
failing service. -/
theorem rerank_with_threshold_failure_empty_witness :
    rerankWithThreshold "q" [dA, dB] 1 2 10 (.error ()) = [] :=
  rerank_with_threshold_failure_empty "q" [dA, dB] 1 2 10 () (by decide)
    (by norm_num) (by decide)

/-! ### C2 -/

/-- C2 amended: on an empty fusion result the route returns the fixed
no-documents response without reaching the reranker or the generator,
but its confidence field is left unset (None), not 0; generate on an
empty passage list returns the fixed no-information answer with empty
citations immediately, and generate_with_confidence on an empty passage
list attaches confidence 0. -/
theorem empty_pipeline_short_circuit :
    (∀ (q : String) (topK selfTopN : ℕ) (conf : Bool)
        (svc : Except Unit (List RerankItem))
        (llm : String → String → Except Unit String)
        (m1 : String → List (String × String)) (m2 : String → List String),
      queryRag q topK conf selfTopN [] svc llm m1 m2 =
        ⟨.ok (noResultsResponse q), false, false⟩) ∧
    (∀ (q : String) (maxLen : ℕ)
        (llm : String → String → Except Unit String)
        (m1 : String → List (String × String)) (m2 : String → List String),
      generate q [] maxLen llm m1 m2 = noDocsOutcome) ∧
    (∀ (q : String) (llm : String → String → Except Unit String)
        (m1 : String → List (String × String)) (m2 : String → List String),
      (generateWithConfidence q [] llm m1 m2).confidence = some 0) :=
  ⟨fun _ _ _ _ _ _ _ _ => rfl, fun _ _ _ _ _ => rfl, fun _ _ _ _ => rfl⟩

/-- C2 counterexample: the short-circuit response carries confidence
None, not the confidence 0 the claim requires. -/
theorem empty_short_circuit_confidence_not_zero :
    (queryRag "q" 5 true 10 [] (.error ()) (fun _ _ => .error ())
      (fun _ => []) (fun _ => [])).response =
      .ok (noResultsResponse "q") ∧
    (none : Option ℚ) ≠ some 0 :=
  ⟨rfl, by decide⟩

/-! ### C5 -/

/-- C5: for a non-empty passage list, generate_with_confidence attaches
exactly the spec confidence — min(1, average of the top-3 relevance
scores + min(count / 5, 0.2) + 0.1 when any citation was produced) —
and the level mapping high at 0.7, medium at 0.4, low below. -/
theorem confidence_formula_and_levels (question : String) (docs : List Doc)
    (llm : String → String → Except Unit String)
    (m1 : String → List (String × String)) (m2 : String → List String)
    (hne : docs ≠ []) :
    (generateWithConfidence question docs llm m1 m2).confidence =
      some (specConfidence docs (!(generateWithConfidence question docs llm m1 m2).citations.isEmpty)) ∧
    (generateWithConfidence question docs llm m1 m2).confidence_level =
      some (specLevel (specConfidence docs (!(generateWithConfidence question docs llm m1 m2).citations.isEmpty))) := by
  obtain ⟨d0, t, rfl⟩ : ∃ d0 t, docs = d0 :: t := by
    cases docs with
    | nil => exact absurd rfl hne
    | cons d0 t => exact ⟨d0, t, rfl⟩
  have hcit : (generateWithConfidence question (d0 :: t) llm m1 m2).citations = (generate question (d0 :: t) ragContextWindow llm m1 m2).citations := rfl
  rw [hcit]
  cases hc : (generate question (d0 :: t) ragContextWindow llm m1 m2).citations.isEmpty
  · have hconf : (generateWithConfidence question (d0 :: t) llm m1 m2).confidence = some (specConfidence (d0 :: t) (!false)) := by
      show some _ = some _
      congr 1
      unfold specConfidence
      simp [hc, min_comm]
    have hlev : (generateWithConfidence question (d0 :: t) llm m1 m2).confidence_level = some (specLevel (specConfidence (d0 :: t) (!false))) := by
      show some _ = some _
      have hc2 := hconf
      rw [show (generateWithConfidence question (d0 :: t) llm m1 m2).confidence = some (if (d0 :: t).isEmpty then (0 : ℚ) else
          let top_scores := ((d0 :: t).take 3).map relevanceScore
          let avg_score := if top_scores.isEmpty then 0 else top_scores.sum / (top_scores.length : ℚ)
          let doc_bonus := min (((d0 :: t).length : ℚ) / 5) (2/10)
          let citation_bonus : ℚ := if (generate question (d0 :: t) ragContextWindow llm m1 m2).citations.isEmpty then 0 else 1/10
          min (avg_score + doc_bonus + citation_bonus) 1) from rfl] at hc2
      have hval := Option.some.inj hc2
      show some (if (7:ℚ)/10 ≤ _ then "high" else if (4:ℚ)/10 ≤ _ then "medium" else "low") = _
      rw [hval]
      rfl
    exact ⟨hconf, hlev⟩
  · have hconf : (generateWithConfidence question (d0 :: t) llm m1 m2).confidence = some (specConfidence (d0 :: t) (!true)) := by
      show some _ = some _
      congr 1
      unfold specConfidence
      simp [hc, min_comm]
    have hlev : (generateWithConfidence question (d0 :: t) llm m1 m2).confidence_level = some (specLevel (specConfidence (d0 :: t) (!true))) := by
      show some _ = some _
      have hc2 := hconf
      rw [show (generateWithConfidence question (d0 :: t) llm m1 m2).confidence = some (if (d0 :: t).isEmpty then (0 : ℚ) else
          let top_scores := ((d0 :: t).take 3).map relevanceScore
          let avg_score := if top_scores.isEmpty then 0 else top_scores.sum / (top_scores.length : ℚ)
          let doc_bonus := min (((d0 :: t).length : ℚ) / 5) (2/10)
          let citation_bonus : ℚ := if (generate question (d0 :: t) ragContextWindow llm m1 m2).citations.isEmpty then 0 else 1/10
          min (avg_score + doc_bonus + citation_bonus) 1) from rfl] at hc2
      have hval := Option.some.inj hc2
      show some (if (7:ℚ)/10 ≤ _ then "high" else if (4:ℚ)/10 ≤ _ then "medium" else "low") = _
      rw [hval]
      rfl
    exact ⟨hconf, hlev⟩

/-- Witness for C5 on one concrete passage. -/
theorem confidence_formula_and_levels_witness :
    (generateWithConfidence "q" [{ rerank_score := some 1 }]
        (fun _ _ => .ok "ans") (fun _ => []) (fun _ => [])).confidence =
      some (specConfidence [{ rerank_score := some 1 }] (!(generateWithConfidence "q" [{ rerank_score := some 1 }] (fun _ _ => .ok "ans") (fun _ => []) (fun _ => [])).citations.isEmpty)) ∧
    (generateWithConfidence "q" [{ rerank_score := some 1 }]
        (fun _ _ => .ok "ans") (fun _ => []) (fun _ => [])).confidence_level =
      some (specLevel (specConfidence [{ rerank_score := some 1 }] (!(generateWithConfidence "q" [{ rerank_score := some 1 }] (fun _ _ => .ok "ans") (fun _ => []) (fun _ => [])).citations.isEmpty))) :=
  confidence_formula_and_levels "q" [{ rerank_score := some 1 }]
    (fun _ _ => .ok "ans") (fun _ => []) (fun _ => []) (by decide)

/-! ### C8 -/

theorem contextBlocks_cons (idx : ℕ) (d : Doc) (rest : List (ℕ × Doc))
    (total maxLength : ℕ) :
    contextBlocks ((idx, d) :: rest) total maxLength =
      if maxLength < total + (docBlock idx d).length then []
      else docBlock idx d ::
        contextBlocks rest (total + (docBlock idx d).length) maxLength := rfl

/-- The kept blocks are an initial segment of the full block list. -/
theorem contextBlocks_initial :
    ∀ (l : List (ℕ × Doc)) (total maxLength : ℕ),
      ∃ t, l.map (fun p => docBlock p.1 p.2) =
        contextBlocks l total maxLength ++ t
  | [], _, _ => ⟨[], rfl⟩
  | (idx, d) :: rest, total, maxLength => by
    rw [contextBlocks_cons]
    by_cases h : maxLength < total + (docBlock idx d).length
    · rw [if_pos h]
      exact ⟨_, (List.nil_append _).symm⟩
    · rw [if_neg h]
      obtain ⟨t, ht⟩ := contextBlocks_initial rest
        (total + (docBlock idx d).length) maxLength
      exact ⟨t, by rw [List.map_cons, ht, List.cons_append]⟩

/-- The accumulated length of the kept blocks never exceeds the budget
left over the running total. -/
theorem contextBlocks_sum_le :
    ∀ (l : List (ℕ × Doc)) (total maxLength : ℕ),
      ((contextBlocks l total maxLength).map String.length).sum + total ≤
        maxLength ∨ contextBlocks l total maxLength = []
  | [], _, _ => .inr rfl
  | (idx, d) :: rest, total, maxLength => by
    rw [contextBlocks_cons]
    by_cases h : maxLength < total + (docBlock idx d).length
    · right
      rw [if_pos h]
    · left
      rw [if_neg h]
      rcases contextBlocks_sum_le rest (total + (docBlock idx d).length)
          maxLength with h2 | h2
      · rw [List.map_cons, List.sum_cons]
        omega
      · rw [h2]
        simp only [List.map_cons, List.map_nil, List.sum_cons, List.sum_nil]
        omega

theorem contextBlocks_sum_le_max (l : List (ℕ × Doc)) (maxLength : ℕ) :
    ((contextBlocks l 0 maxLength).map String.length).sum ≤ maxLength := by
  rcases contextBlocks_sum_le l 0 maxLength with h | h
  · omega
  · rw [h]
    simp

theorem intercalate_go_length (s : String) :
    ∀ (l : List String) (acc : String),
      (String.intercalate.go acc s l).length =
        acc.length + (l.map String.length).sum + s.length * l.length
  | [], acc => by
    show acc.length = _
    simp
  | a :: as, acc => by
    show (String.intercalate.go (acc ++ s ++ a) s as).length = _
    rw [intercalate_go_length s as (acc ++ s ++ a)]
    simp only [String.length_append, List.map_cons, List.sum_cons,
      List.length_cons]
    ring

theorem buildContext_length_bound (documents : List Doc) (maxLength : ℕ) :
    (buildContextString documents maxLength).length ≤
      maxLength + (contextBlocks (documents.enumFrom 1) 0 maxLength).length := by
  unfold buildContextString
  have hsum := contextBlocks_sum_le_max (documents.enumFrom 1) maxLength
  cases hcb : contextBlocks (documents.enumFrom 1) 0 maxLength with
  | nil => simp [String.intercalate]
  | cons a as =>
    rw [hcb] at hsum
    show (String.intercalate.go a "\n" as).length ≤ _
    rw [intercalate_go_length]
    have h1 : ("\n" : String).length = 1 := rfl
    rw [h1]
    simp only [List.map_cons, List.sum_cons, List.length_cons] at hsum ⊢
    omega

/-- C8 amended: the kept passage blocks are whole and form an initial
segment of the block sequence in ranking order, and their accumulated
length never exceeds maxLength; but the returned string is the
newline-join of those blocks, so its length can exceed maxLength by up
to one separator character per kept block. -/
theorem build_context_whole_blocks (documents : List Doc) (maxLength : ℕ) :
    (∃ t, (documents.enumFrom 1).map (fun p => docBlock p.1 p.2) =
      contextBlocks (documents.enumFrom 1) 0 maxLength ++ t) ∧
    ((contextBlocks (documents.enumFrom 1) 0 maxLength).map
      String.length).sum ≤ maxLength ∧
    (buildContextString documents maxLength).length ≤
      maxLength + (contextBlocks (documents.enumFrom 1) 0 maxLength).length :=
  ⟨contextBlocks_initial _ 0 maxLength,
   contextBlocks_sum_le_max _ maxLength,
   buildContext_length_bound documents maxLength⟩

/-- A document whose block renders to 44 characters. -/
def d88 : Doc := { content := "x", metadata := ⟨some "s", some "p"⟩ }

/-- C8 counterexample: two 44-character blocks both fit a budget of 88,
yet the newline join makes the returned context string 89 characters
long, exceeding maxLength = 88. -/
theorem build_context_exceeds_maxLength :
    ((contextBlocks ([d88, d88].enumFrom 1) 0 88).map String.length).sum =
      88 ∧
    (buildContextString [d88, d88] 88).length = 89 ∧
    ¬((buildContextString [d88, d88] 88).length ≤ 88) := by
  refine ⟨by decide, by decide, by decide⟩

/-! ### C6 -/

/-- The lexicographic (score, position) order used to model the stable
ascending argsort. -/
def lexAsc (scores : List ℚ) (i j : ℕ) : Prop :=
  scores.getD i 0 < scores.getD j 0 ∨
    (scores.getD i 0 = scores.getD j 0 ∧ i ≤ j)

theorem argsortAsc_perm (scores : List ℚ) :
    (argsortAsc scores).Perm (List.range scores.length) := by
  unfold argsortAsc
  exact List.perm_insertionSort _ _

theorem argsortAsc_sorted (scores : List ℚ) :
    (argsortAsc scores).Pairwise (lexAsc scores) := by
  unfold argsortAsc lexAsc
  haveI : IsTotal ℕ fun i j : ℕ =>
      scores.getD i 0 < scores.getD j 0 ∨
        (scores.getD i 0 = scores.getD j 0 ∧ i ≤ j) := by
    constructor
    intro i j
    rcases lt_trichotomy (scores.getD i 0) (scores.getD j 0) with h | h | h
    · exact .inl (.inl h)
    · rcases le_total i j with hij | hij
      · exact .inl (.inr ⟨h, hij⟩)
      · exact .inr (.inr ⟨h.symm, hij⟩)
    · exact .inr (.inl h)
  haveI : IsTrans ℕ fun i j : ℕ =>
      scores.getD i 0 < scores.getD j 0 ∨
        (scores.getD i 0 = scores.getD j 0 ∧ i ≤ j) := by
    constructor
    intro a b c hab hbc
    rcases hab with h1 | ⟨h1, h1'⟩ <;> rcases hbc with h2 | ⟨h2, h2'⟩
    · exact .inl (lt_trans h1 h2)
    · exact .inl (lt_of_lt_of_le h1 (le_of_eq h2))
    · exact .inl (lt_of_le_of_lt (le_of_eq h1) h2)
    · exact .inr ⟨h1.trans h2, le_trans h1' h2'⟩
  exact List.sorted_insertionSort _ _

theorem pySliceLast_sublist (k : ℕ) (l : List ℕ) :
    (pySliceLast k l).Sublist l := by
  unfold pySliceLast
  split
  · exact List.Sublist.refl l
  · exact List.drop_sublist _ l

theorem pySliceLast_length_le (k : ℕ) (l : List ℕ) (hk : k ≠ 0) :
    (pySliceLast k l).length ≤ k := by
  unfold pySliceLast
  rw [if_neg hk, List.length_drop]
  omega

theorem search_built_eq (st : BM25Store) (scores : List ℚ) (topK : ℕ)
    (hb : st.built = true) :
    st.search scores topK = .ok
      ((pySliceLast topK (argsortAsc scores)).reverse.filterMap fun idx =>
        if 0 < scores.getD idx 0 then
          some { idx := idx, score := scores.getD idx 0 }
        else none) := by
  unfold BM25Store.search
  rw [hb]
  rfl

theorem filterMap_pos_map_idx (scores : List ℚ) :
    ∀ l : List ℕ,
      ((l.filterMap fun idx =>
        if 0 < scores.getD idx 0 then
          some (BMResult.mk idx (scores.getD idx 0))
        else none).map BMResult.idx) =
      l.filter fun idx => decide (0 < scores.getD idx 0)
  | [] => rfl
  | a :: t => by
    rw [List.filterMap_cons, List.filter_cons]
    by_cases h : 0 < scores.getD a 0
    · rw [if_pos h, if_pos (decide_eq_true h)]
      rw [List.map_cons, filterMap_pos_map_idx scores t]
    · rw [if_neg h, if_neg (by simpa using h)]
      exact filterMap_pos_map_idx scores t

/-- C6 amended: with the stable-argsort model of numpy argsort, search
on a built index returns at most topK results (for positive topK; the
Python slice [-0:] would return every positive-score document), every
result score is strictly positive, results are weakly descending by
score with equal scores in reverse corpus insertion order, the returned
corpus indices are distinct, and search on an unbuilt index fails with
the index-not-built error. -/
theorem bm25_search_spec :
    (∀ (st : BM25Store) (scores : List ℚ) (topK : ℕ),
      st.built = true → 1 ≤ topK →
      ∃ res, st.search scores topK = .ok res ∧
        res.length ≤ topK ∧
        (∀ r ∈ res, 0 < r.score) ∧
        res.Pairwise (fun a b => b.score ≤ a.score ∧
          (b.score = a.score → b.idx ≤ a.idx)) ∧
        (res.map BMResult.idx).Nodup) ∧
    (∀ (st : BM25Store) (scores : List ℚ) (topK : ℕ),
      st.built = false →
      st.search scores topK =
        .error "Index not built. Call build_index() first.") := by
  constructor
  · intro st scores topK hb hk
    refine ⟨_, search_built_eq st scores topK hb, ?_, ?_, ?_, ?_⟩
    · apply le_trans (List.length_filterMap_le _ _)
      rw [List.length_reverse]
      exact pySliceLast_length_le topK _ (by omega)
    · intro r hr
      obtain ⟨idx, _, hidx⟩ := List.mem_filterMap.mp hr
      by_cases h : 0 < scores.getD idx 0
      · rw [if_pos h] at hidx
        cases hidx
        exact h
      · rw [if_neg h] at hidx
        cases hidx
    · have h1 : (pySliceLast topK (argsortAsc scores)).Pairwise
          (lexAsc scores) :=
        (argsortAsc_sorted scores).sublist (pySliceLast_sublist topK _)
      have h2 : (pySliceLast topK (argsortAsc scores)).reverse.Pairwise
          (fun i j => lexAsc scores j i) :=
        (List.pairwise_reverse).mpr h1
      rw [List.pairwise_filterMap]
      refine h2.imp ?_
      intro i j hji r hr r' hr'
      by_cases hi : 0 < scores.getD i 0
      · rw [if_pos hi, Option.mem_some_iff] at hr
        by_cases hj : 0 < scores.getD j 0
        · rw [if_pos hj, Option.mem_some_iff] at hr'
          subst hr
          subst hr'
          rcases hji with h | ⟨h, h'⟩
          · refine ⟨le_of_lt h, fun he => ?_⟩
            have he' : scores.getD j 0 = scores.getD i 0 := he
            exact absurd (he' ▸ h) (lt_irrefl _)
          · exact ⟨le_of_eq h, fun _ => h'⟩
        · rw [if_neg hj] at hr'
          cases hr'
      · rw [if_neg hi] at hr
        cases hr
    · rw [filterMap_pos_map_idx]
      apply List.Nodup.filter
      rw [List.nodup_reverse]
      exact List.Nodup.sublist (pySliceLast_sublist topK _)
        ((argsortAsc_perm scores).nodup_iff.mpr (List.nodup_range _))
  · intro st scores topK hb
    unfold BM25Store.search
    rw [hb]
    rfl

/-- Witness for C6 amended: a built two-document index with distinct
scores and topK 2, and an unbuilt store. -/
theorem bm25_search_spec_witness :
    (∃ res, BM25Store.search ⟨[dA, dB], true⟩ [1, 2] 2 = .ok res ∧
      res.length ≤ 2 ∧
      (∀ r ∈ res, 0 < r.score) ∧
      res.Pairwise (fun a b => b.score ≤ a.score ∧
        (b.score = a.score → b.idx ≤ a.idx)) ∧
      (res.map BMResult.idx).Nodup) ∧
    BM25Store.search ⟨[dA, dB], false⟩ [1, 2] 2 =
      .error "Index not built. Call build_index() first." :=
  ⟨bm25_search_spec.1 ⟨[dA, dB], true⟩ [1, 2] 2 rfl (by decide),
   bm25_search_spec.2 ⟨[dA, dB], false⟩ [1, 2] 2 rfl⟩

/-- C6 counterexample: two corpus documents with equal positive scores
come back in reverse insertion order — index 1 before index 0 — because
argsort ascending is reversed, so the claimed preservation of corpus
insertion order fails. -/
theorem bm25_tie_order_reversed :
    BM25Store.search ⟨[dA, dB], true⟩ [1, 1] 2 =
      .ok [⟨1, 1⟩, ⟨0, 1⟩] ∧
    (1 : ℚ) = 1 ∧
    ([⟨1, 1⟩, ⟨0, 1⟩] : List BMResult).map BMResult.idx ≠ [0, 1] := by
  refine ⟨by decide, rfl, by decide⟩

end FintechRag
